import Mathlib

/-!
Verification of the Air Lift synchronization protocol
(`semSharedMemHostess.c`, `semSharedMemPassenger.c`).

The shared record `SHARED_DATA.fSt` is embedded as `AirLift.FullSt`; every
critical section of the hostess and passenger programs becomes a pure Lean
function on `FullSt`, translated line by line from the C source.  On top of
those we build a small-step interleaving semantics (`AirLift.Sys`,
`AirLift.Step`) whose atomic steps are exactly the mutex-protected critical
sections and the individual semaphore operations of the three kinds of
processes; the pilot process is not part of the two given source files, so
its steps are modelled from the specification's external contract.
-/

namespace AirLift

/-- Hostess status enum of `probDataStruct.h` (values used by the two given
source files). -/
inductive HostessStat where
  | WAIT_FOR_FLIGHT
  | WAIT_FOR_PASSENGER
  | CHECK_PASSPORT
  | READY_TO_FLIGHT
deriving DecidableEq

/-- Passenger status enum of `probDataStruct.h` (values used by the two given
source files). -/
inductive PassengerStat where
  | IN_QUEUE
  | IN_FLIGHT
  | AT_DESTINATION
deriving DecidableEq

/-- Configuration constants of `probConst.h`: total passengers `N` and the
minimum/maximum flight capacities `MINFC`/`MAXFC`, supplied externally and
fixed for a run. -/
structure Config where
  N : Nat
  MINFC : Nat
  MAXFC : Nat

/-- The shared record `sh->fSt`.  C `int` counters are embedded as `Int`;
the per-flight headcount array is a total map from `Int` indices; a
passenger status of `none` means the launcher-initialized value before the
passenger's first own write (the spec's "(unstarted)"). -/
structure FullSt where
  nPassInQueue : Int
  nPassInFlight : Int
  totalPassBoarded : Int
  nFlight : Int
  nPassengersInFlight : Int → Int
  finished : Bool
  passengerChecked : Nat
  hostessStat : HostessStat
  passengerStat : Nat → Option PassengerStat

/-- Embedding of `checkPassport`, lines 267-269: the counter updates performed under the
mutex after the passenger has shown its id. -/
def checkPassportUpdate (f : FullSt) : FullSt :=
  { f with nPassInQueue := f.nPassInQueue - 1,
           nPassInFlight := f.nPassInFlight + 1,
           totalPassBoarded := f.totalPassBoarded + 1 }

/-- Embedding of `checkPassport`, lines 274-287: the departure decision, read off the
shared counters while still holding the mutex. -/
def checkPassportLast (cfg : Config) (f : FullSt) : Bool :=
  if f.nPassInFlight = (cfg.MAXFC : Int) then true
  else if (cfg.MINFC : Int) ≤ f.nPassInFlight ∧ f.nPassInQueue = 0 then true
  else if f.totalPassBoarded = (cfg.N : Int) then true
  else false

/-- Embedding of `checkPassport`, lines 261-294: the whole final critical section — counter
updates followed by the departure decision on the just-updated counters. -/
def checkPassportCS (cfg : Config) (f : FullSt) : FullSt × Bool :=
  let f' := checkPassportUpdate f
  (f', checkPassportLast cfg f')

/-- Embedding of `signalReadyToFlight`, lines 321-344: the critical section that records
the hostess status, persists the departing flight's headcount at array index
`nFlight - 1`, and sets `finished` when all `N` passengers have boarded. -/
def signalReadyToFlightCS (cfg : Config) (f : FullSt) : FullSt :=
  { f with hostessStat := HostessStat.READY_TO_FLIGHT,
           nPassengersInFlight := Function.update f.nPassengersInFlight (f.nFlight - 1) f.nPassInFlight,
           finished := if f.totalPassBoarded = (cfg.N : Int) then true else f.finished }

/-- Embedding of `waitInQueue`, lines 151-166: the enqueue critical section of passenger
`p` — increment the queue counter and set own status to `IN_QUEUE`. -/
def waitInQueueEnqueueCS (p : Nat) (f : FullSt) : FullSt :=
  { f with nPassInQueue := f.nPassInQueue + 1,
           passengerStat := Function.update f.passengerStat p
             (some PassengerStat.IN_QUEUE) }

/-- Embedding of `waitInQueue`, lines 184-200: the id hand-over critical section of
passenger `p` — write own id into `passengerChecked` and set own status to
`IN_FLIGHT`. -/
def waitInQueueShowIdCS (p : Nat) (f : FullSt) : FullSt :=
  { f with passengerChecked := p,
           passengerStat := Function.update f.passengerStat p
             (some PassengerStat.IN_FLIGHT) }

/-- Embedding of `waitUntilDestination`, lines 227-251: the disembark critical section of
passenger `p` — set own status to `AT_DESTINATION`, decrement
`nPassInFlight`, and report (second component) whether the zero-test fires,
i.e. whether this passenger signals `planeEmpty`; decrement, zero-test and
signal all happen inside the same mutex-protected section, exactly as in the
source. -/
def leavePlaneCS (p : Nat) (f : FullSt) : FullSt × Bool :=
  let f1 := { f with
    passengerStat := Function.update f.passengerStat p
      (some PassengerStat.AT_DESTINATION),
    nPassInFlight := f.nPassInFlight - 1 }
  (f1, f1.nPassInFlight == 0)

/-- Program counter of the hostess process (`semSharedMemHostess.c`, `main`):
`h0` the `while (nPassengers < N)` test; `h1` the `WAIT_FOR_FLIGHT` critical
section; `h2` the blocking down on `readyForBoarding`; `h3` the
`WAIT_FOR_PASSENGER` critical section; `h4` the down on `passengersInQueue`;
`h5` the up on `passengersWaitInQueue`; `h6` the `CHECK_PASSPORT` critical
section; `h7` the down on `idShown`; `h8` the check-in critical section
(counter updates and departure decision); `h9` the `READY_TO_FLIGHT`
critical section; `h10` the up on `readyToFlight`; `hdone` loop exited. -/
inductive HPc where
  | h0 | h1 | h2 | h3 | h4 | h5 | h6 | h7 | h8 | h9 | h10 | hdone
deriving DecidableEq

/-- Program counter of a passenger process (`semSharedMemPassenger.c`,
`main`): `p0` the enqueue critical section; `p1` the up on
`passengersInQueue`; `p2` the down on `passengersWaitInQueue`; `p3` the id
hand-over critical section; `p4` the up on `idShown`; `p5` the down on
`passengersWaitInFlight`; `p6` the disembark critical section (with its
conditional `planeEmpty` signal); `p7` life cycle complete. -/
inductive PPc where
  | p0 | p1 | p2 | p3 | p4 | p5 | p6 | p7
deriving DecidableEq

/-- Program counter of the pilot process.  Modelled from the spec: the pilot
source is not among the given files; per flight cycle it signals
`readyForBoarding`, blocks on `readyToFlight`, signals
`passengersWaitInFlight` once per boarded passenger, and blocks on
`planeEmpty`. -/
inductive LPc where
  | l0 | l1 | l2 | l3
deriving DecidableEq

/-- Current values of the counting gates of the semaphore set (the mutex is
implicit: each atomic step of the model is one mutex-protected critical
section or one single gate operation). -/
structure Sems where
  passengersInQueue : Nat
  passengersWaitInQueue : Nat
  idShown : Nat
  readyForBoarding : Nat
  readyToFlight : Nat
  passengersWaitInFlight : Nat
  planeEmpty : Nat
deriving DecidableEq

/-- Global state of the interleaved system: the shared record, the gates,
the hostess's program counter and local `nPassengers` counter, the
per-passenger program counters and the pilot's program counter. -/
structure Sys where
  fSt : FullSt
  sems : Sems
  hpc : HPc
  nPassengers : Nat
  ppc : Nat → PPc
  lpc : LPc

/-- One atomic step of the hostess process, `none` when the hostess is
blocked (a gate at zero) or finished.  Each case is read off
`semSharedMemHostess.c`: the loop structure of `main` (lines 116-129) and
the bodies of `waitForNextFlight`, `waitForPassenger`, `checkPassport` and
`signalReadyToFlight`. -/
def hstep (cfg : Config) (s : Sys) : Option Sys :=
  match s.hpc with
  | HPc.h0 =>
      if s.nPassengers < cfg.N then some { s with hpc := HPc.h1 }
      else some { s with hpc := HPc.hdone }
  | HPc.h1 =>
      some { s with fSt := { s.fSt with hostessStat := HostessStat.WAIT_FOR_FLIGHT },
                    hpc := HPc.h2 }
  | HPc.h2 =>
      if s.sems.readyForBoarding = 0 then none
      else some { s with sems := { s.sems with readyForBoarding := s.sems.readyForBoarding - 1 },
                         hpc := HPc.h3 }
  | HPc.h3 =>
      some { s with fSt := { s.fSt with hostessStat := HostessStat.WAIT_FOR_PASSENGER },
                    hpc := HPc.h4 }
  | HPc.h4 =>
      if s.sems.passengersInQueue = 0 then none
      else some { s with sems := { s.sems with passengersInQueue := s.sems.passengersInQueue - 1 },
                         hpc := HPc.h5 }
  | HPc.h5 =>
      some { s with sems := { s.sems with passengersWaitInQueue := s.sems.passengersWaitInQueue + 1 },
                    hpc := HPc.h6 }
  | HPc.h6 =>
      some { s with fSt := { s.fSt with hostessStat := HostessStat.CHECK_PASSPORT },
                    hpc := HPc.h7 }
  | HPc.h7 =>
      if s.sems.idShown = 0 then none
      else some { s with sems := { s.sems with idShown := s.sems.idShown - 1 },
                         hpc := HPc.h8 }
  | HPc.h8 =>
      let r := checkPassportCS cfg s.fSt
      some { s with fSt := r.1,
                    nPassengers := s.nPassengers + 1,
                    hpc := if r.2 then HPc.h9 else HPc.h3 }
  | HPc.h9 =>
      some { s with fSt := signalReadyToFlightCS cfg s.fSt, hpc := HPc.h10 }
  | HPc.h10 =>
      some { s with sems := { s.sems with readyToFlight := s.sems.readyToFlight + 1 },
                    hpc := HPc.h0 }
  | HPc.hdone => none

/-- One atomic step of passenger process `p`, `none` when blocked or done.
Read off `semSharedMemPassenger.c`: `waitInQueue` and
`waitUntilDestination`. -/
def pstep (p : Nat) (s : Sys) : Option Sys :=
  match s.ppc p with
  | PPc.p0 =>
      some { s with fSt := waitInQueueEnqueueCS p s.fSt,
                    ppc := Function.update s.ppc p PPc.p1 }
  | PPc.p1 =>
      some { s with sems := { s.sems with passengersInQueue := s.sems.passengersInQueue + 1 },
                    ppc := Function.update s.ppc p PPc.p2 }
  | PPc.p2 =>
      if s.sems.passengersWaitInQueue = 0 then none
      else some { s with sems := { s.sems with passengersWaitInQueue := s.sems.passengersWaitInQueue - 1 },
                         ppc := Function.update s.ppc p PPc.p3 }
  | PPc.p3 =>
      some { s with fSt := waitInQueueShowIdCS p s.fSt,
                    ppc := Function.update s.ppc p PPc.p4 }
  | PPc.p4 =>
      some { s with sems := { s.sems with idShown := s.sems.idShown + 1 },
                    ppc := Function.update s.ppc p PPc.p5 }
  | PPc.p5 =>
      if s.sems.passengersWaitInFlight = 0 then none
      else some { s with sems := { s.sems with passengersWaitInFlight := s.sems.passengersWaitInFlight - 1 },
                         ppc := Function.update s.ppc p PPc.p6 }
  | PPc.p6 =>
      let r := leavePlaneCS p s.fSt
      some { s with fSt := r.1,
                    sems := if r.2 then { s.sems with planeEmpty := s.sems.planeEmpty + 1 } else s.sems,
                    ppc := Function.update s.ppc p PPc.p7 }
  | PPc.p7 => none

/-- One atomic step of the pilot process.  Modelled from the spec: the pilot
source file is not among the given files; section 4.3's external contract
says the pilot signals `readyForBoarding` once per flight cycle (taking the
next flight number), blocks on `readyToFlight`, then signals
`passengersWaitInFlight` once per passenger that boarded (re-reading
`nPassInFlight` before any passenger starts decrementing it), and blocks on
`planeEmpty`. -/
def lstep (s : Sys) : Option Sys :=
  match s.lpc with
  | LPc.l0 =>
      some { s with fSt := { s.fSt with nFlight := s.fSt.nFlight + 1 },
                    sems := { s.sems with readyForBoarding := s.sems.readyForBoarding + 1 },
                    lpc := LPc.l1 }
  | LPc.l1 =>
      if s.sems.readyToFlight = 0 then none
      else some { s with sems := { s.sems with readyToFlight := s.sems.readyToFlight - 1 },
                         lpc := LPc.l2 }
  | LPc.l2 =>
      some { s with sems := { s.sems with passengersWaitInFlight := s.sems.passengersWaitInFlight + s.fSt.nPassInFlight.toNat },
                    lpc := LPc.l3 }
  | LPc.l3 =>
      if s.sems.planeEmpty = 0 then none
      else some { s with sems := { s.sems with planeEmpty := s.sems.planeEmpty - 1 },
                         lpc := LPc.l0 }

/-- The interleaving step relation: some process that is enabled moves;
passenger indices are the launcher's `0 .. N-1`. -/
def Step (cfg : Config) (s s' : Sys) : Prop :=
  hstep cfg s = some s' ∨ (∃ p, p < cfg.N ∧ pstep p s = some s') ∨ lstep s = some s'

/-- The initial state.  Modelled from the spec: the launcher
(`probSemSharedMemAirLift`) is not among the given files; per the spec the
cumulative and occupancy counters start at zero, all counting gates start at
zero, the hostess starts in `WAIT_FOR_FLIGHT`, and every passenger status is
still the unstarted value. -/
def initSys : Sys :=
  { fSt := { nPassInQueue := 0, nPassInFlight := 0, totalPassBoarded := 0,
             nFlight := 0, nPassengersInFlight := fun _ => 0, finished := false,
             passengerChecked := 0, hostessStat := HostessStat.WAIT_FOR_FLIGHT,
             passengerStat := fun _ => none },
    sems := { passengersInQueue := 0, passengersWaitInQueue := 0, idShown := 0,
              readyForBoarding := 0, readyToFlight := 0,
              passengersWaitInFlight := 0, planeEmpty := 0 },
    hpc := HPc.h0, nPassengers := 0, ppc := fun _ => PPc.p0, lpc := LPc.l0 }

/-- Reachability from the initial state under the interleaving relation. -/
inductive Reach (cfg : Config) : Sys → Prop where
  | init : Reach cfg initSys
  | step {s s' : Sys} : Reach cfg s → Step cfg s s' → Reach cfg s'

/-- A scheduling token: which process moves next. -/
inductive Mv where
  | H : Mv
  | P : Nat → Mv
  | L : Mv

/-- Run a finite schedule of process moves; `none` if a scheduled process is
blocked. -/
def run (cfg : Config) : List Mv → Sys → Option Sys
  | [], s => some s
  | mv :: ms, s =>
      match (match mv with
             | Mv.H => hstep cfg s
             | Mv.P p => pstep p s
             | Mv.L => lstep s) with
      | some s' => run cfg ms s'
      | none => none

/-- Number of passengers (among the launcher's ids `0 .. n-1`) whose status
is `AT_DESTINATION`. -/
def destCount (n : Nat) (st : Nat → Option PassengerStat) : Nat :=
  ((Finset.range n).filter (fun q => st q = some PassengerStat.AT_DESTINATION)).card

/-- The passenger status that the source guarantees at each point of the
passenger's own control flow (only the passenger itself ever writes its
status). -/
def pcStatus : PPc → Option PassengerStat → Prop
  | PPc.p0, st => st = none
  | PPc.p1, st => st = some PassengerStat.IN_QUEUE
  | PPc.p2, st => st = some PassengerStat.IN_QUEUE
  | PPc.p3, st => st = some PassengerStat.IN_QUEUE
  | PPc.p4, st => st = some PassengerStat.IN_FLIGHT
  | PPc.p5, st => st = some PassengerStat.IN_FLIGHT
  | PPc.p6, st => st = some PassengerStat.IN_FLIGHT
  | PPc.p7, st => st = some PassengerStat.AT_DESTINATION

/-- Bounds on the hostess's local `nPassengers` counter at each point of her
control flow. -/
def hctl (cfg : Config) : HPc → Nat → Prop
  | HPc.h0, n => n ≤ cfg.N
  | HPc.h1, n => n < cfg.N
  | HPc.h2, n => n < cfg.N
  | HPc.h3, n => n < cfg.N
  | HPc.h4, n => n < cfg.N
  | HPc.h5, n => n < cfg.N
  | HPc.h6, n => n < cfg.N
  | HPc.h7, n => n < cfg.N
  | HPc.h8, n => n < cfg.N
  | HPc.h9, n => n ≤ cfg.N
  | HPc.h10, n => n ≤ cfg.N
  | HPc.hdone, n => n = cfg.N

/-- The inductive invariant of the interleaved system: conservation of
boarded passengers, the control-flow/status correspondence for each
passenger, the lockstep between `totalPassBoarded` and the hostess's local
counter, the bounds on that counter, and soundness of `finished`. -/
def Inv (cfg : Config) (s : Sys) : Prop :=
  s.fSt.nPassInFlight + (destCount cfg.N s.fSt.passengerStat : Int) = s.fSt.totalPassBoarded ∧
  (∀ p, p < cfg.N → pcStatus (s.ppc p) (s.fSt.passengerStat p)) ∧
  s.fSt.totalPassBoarded = (s.nPassengers : Int) ∧
  hctl cfg s.hpc s.nPassengers ∧
  (s.fSt.finished = true → s.fSt.totalPassBoarded = (cfg.N : Int))

/-- The per-step `planeEmpty` signal flags of a disembark phase: run the
disembark critical section for each listed passenger in order and record,
for each, whether its zero-test fired (i.e. whether it signalled
`planeEmpty`). -/
def disembarkFlags : List Nat → FullSt → List Bool
  | [], _ => []
  | p :: rest, f => (leavePlaneCS p f).2 :: disembarkFlags rest (leavePlaneCS p f).1

/-- Counters the hostess observes right after each check-in, as determined
by the environment (passengers enqueueing, pilot timing): `queueAt k` and
`flightAt k` are `nPassInQueue` and `nPassInFlight` after the `k`-th
check-in of the run; `totalPassBoarded` after the `k`-th check-in is `k`
itself (the lockstep proved of the full system in `Inv`). -/
structure HEnv where
  flightAt : Nat → Int
  queueAt : Nat → Int

/-- The departure decision the hostess computes after the `k`-th check-in of
a run, under environment `env`. -/
def lastAt (cfg : Config) (env : HEnv) (k : Nat) : Bool :=
  checkPassportLast cfg
    { nPassInQueue := env.queueAt k, nPassInFlight := env.flightAt k,
      totalPassBoarded := (k : Int), nFlight := 0,
      nPassengersInFlight := fun _ => 0, finished := false,
      passengerChecked := 0, hostessStat := HostessStat.CHECK_PASSPORT,
      passengerStat := fun _ => none }

/-- The hostess `main` inner do-while loop (lines 122-127): each iteration
performs one check-in, increments the local counter, and exits when the
departure decision fires.  `fuel` bounds the number of iterations; `none`
means the bound was hit. -/
def hostessInnerLoop (cfg : Config) (env : HEnv) : Nat → Nat → Option Nat
  | 0, _ => none
  | fuel + 1, n =>
      if lastAt cfg env (n + 1) then some (n + 1)
      else hostessInnerLoop cfg env fuel (n + 1)

/-- The hostess `main` outer while loop (lines 119-129), abstracted over the
environment.  The blocking gate waits are modelled as eventually granted:
that is exactly the claim's hypothesis that `N` passenger actors run and the
pilot honors its signal contract. -/
def hostessOuterLoop (cfg : Config) (env : HEnv) : Nat → Nat → Option Nat
  | 0, _ => none
  | fuel + 1, n =>
      if n < cfg.N then
        match hostessInnerLoop cfg env (cfg.N - n) n with
        | some n' => hostessOuterLoop cfg env fuel n'
        | none => none
      else some n

/-- Result of one semaphore-set operation, as seen by the caller (`ok` for
`0`, `err` for `-1`). -/
inductive SemRes where
  | ok
  | err
deriving DecidableEq

/-- Outcome of running a passenger function: the process either terminated
via `exit(EXIT_FAILURE)` or completed with the critical section's effect
applied to the shared record. -/
inductive PgOutcome where
  | terminated
  | completed (f : FullSt)

/-- Whether the outcome is process termination. -/
def PgOutcome.isTerminated : PgOutcome → Bool
  | PgOutcome.terminated => true
  | PgOutcome.completed _ => false

/-- Results returned to the four semaphore operations of
`waitUntilDestination`, in program order. -/
structure DestEnv where
  waitInFlightRes : SemRes
  mutexDownRes : SemRes
  planeEmptyUpRes : SemRes
  mutexUpRes : SemRes

/-- Embedding of `waitUntilDestination` (`semSharedMemPassenger.c`, lines 221-252) with
the result of every semaphore operation made explicit.  Line 224's down on
`passengersWaitInFlight` discards its result — exactly as the source line
`semDown(semgid, sh->passengersWaitInFlight);` does, with no `== -1` check —
while every other operation checks for the error value and terminates the
process. -/
def waitUntilDestinationRun (p : Nat) (env : DestEnv) (f : FullSt) : PgOutcome :=
  match env.mutexDownRes with
  | SemRes.err => PgOutcome.terminated
  | SemRes.ok =>
      let r := leavePlaneCS p f
      if r.2 then
        match env.planeEmptyUpRes with
        | SemRes.err => PgOutcome.terminated
        | SemRes.ok =>
            match env.mutexUpRes with
            | SemRes.err => PgOutcome.terminated
            | SemRes.ok => PgOutcome.completed r.1
      else
        match env.mutexUpRes with
        | SemRes.err => PgOutcome.terminated
        | SemRes.ok => PgOutcome.completed r.1

/-- Erase the `passengerChecked` scratch field; two states are "equal up to
the handed-over identity" exactly when their scrubs are equal. -/
def scrub (s : Sys) : Sys :=
  { s with fSt := { s.fSt with passengerChecked := 0 } }

/-- The smallest configuration: a single passenger, both capacities one. -/
def cfg1 : Config := { N := 1, MINFC := 1, MAXFC := 1 }

/-- The scenario configuration of the spec: ten passengers, capacities three
to five. -/
def cfg10 : Config := { N := 10, MINFC := 3, MAXFC := 5 }

/-- Schedule: under `cfg1`, passenger 0 enqueues. -/
def enqSched : List Mv := [Mv.P 0]

/-- The state reached by `enqSched`: one passenger waiting in the queue,
nobody checked in yet. -/
def enqState : Sys := (run cfg1 enqSched initSys).getD initSys

/-- Schedule: under `cfg1`, the full system runs until the hostess has just
completed the check-in critical section that makes `totalPassBoarded` reach
`N = 1` and has released the mutex; `finished` is not yet set because the
`READY_TO_FLIGHT` section has not run. -/
def lastCheckSched : List Mv :=
  [Mv.H, Mv.H, Mv.L, Mv.H, Mv.H, Mv.P 0, Mv.P 0, Mv.H, Mv.H, Mv.H,
   Mv.P 0, Mv.P 0, Mv.P 0, Mv.H, Mv.H]

/-- The state reached by `lastCheckSched`. -/
def lastCheckState : Sys := (run cfg1 lastCheckSched initSys).getD initSys

/-- A mid-simulation shared record under `cfg10`: the third flight
(`nFlight = 2`) holds five passengers and is about to have its headcount
recorded. -/
def flight2St : FullSt :=
  { nPassInQueue := 0, nPassInFlight := 5, totalPassBoarded := 8, nFlight := 2,
    nPassengersInFlight := fun _ => 0, finished := false, passengerChecked := 0,
    hostessStat := HostessStat.CHECK_PASSPORT, passengerStat := fun _ => none }

/-- A shared record with a single passenger still aboard. -/
def oneAboard : FullSt :=
  { nPassInQueue := 0, nPassInFlight := 1, totalPassBoarded := 1, nFlight := 1,
    nPassengersInFlight := fun _ => 0, finished := true, passengerChecked := 0,
    hostessStat := HostessStat.WAIT_FOR_FLIGHT, passengerStat := fun _ => none }

/-- Operation results where the down on `passengersWaitInFlight` fails and
every later operation succeeds. -/
def destEnvBad : DestEnv :=
  { waitInFlightRes := SemRes.err, mutexDownRes := SemRes.ok,
    planeEmptyUpRes := SemRes.ok, mutexUpRes := SemRes.ok }

/-- Rank of a passenger status in the life-cycle order
unstarted < IN_QUEUE < IN_FLIGHT < AT_DESTINATION. -/
def statusRank : Option PassengerStat → Nat
  | none => 0
  | some PassengerStat.IN_QUEUE => 1
  | some PassengerStat.IN_FLIGHT => 2
  | some PassengerStat.AT_DESTINATION => 3

/-- The state reached from `lastCheckState` by the hostess's
`READY_TO_FLIGHT` critical section. -/
def afterReadyState : Sys := (hstep cfg1 lastCheckState).getD lastCheckState

/-- A shared record with three passengers aboard a departed flight. -/
def threeAboard : FullSt :=
  { nPassInQueue := 0, nPassInFlight := 3, totalPassBoarded := 3, nFlight := 1,
    nPassengersInFlight := fun _ => 0, finished := false, passengerChecked := 0,
    hostessStat := HostessStat.WAIT_FOR_FLIGHT, passengerStat := fun _ => none }

/-- The initial state with `passengerChecked` set to 1. -/
def checkedOneSt : Sys :=
  { initSys with fSt := { initSys.fSt with passengerChecked := 1 } }

/-- The initial state with `passengerChecked` set to 2. -/
def checkedTwoSt : Sys :=
  { initSys with fSt := { initSys.fSt with passengerChecked := 2 } }

/-- Claim C1: after a completed check-in, evaluated on the just-updated
counters, the hostess's departure decision is `true` exactly when the plane
is full (`nPassInFlight = MAXFC`), or the minimum is met with an empty queue
(`nPassInFlight ≥ MINFC` and `nPassInQueue = 0`), or all passengers have
boarded (`totalPassBoarded = N`); in every other case it is `false`. -/
theorem checkPassport_ready_iff (cfg : Config) (f : FullSt) :
    (checkPassportCS cfg f).2 = true ↔
      ((checkPassportUpdate f).nPassInFlight = (cfg.MAXFC : Int) ∨
       ((cfg.MINFC : Int) ≤ (checkPassportUpdate f).nPassInFlight ∧
          (checkPassportUpdate f).nPassInQueue = 0) ∨
       (checkPassportUpdate f).totalPassBoarded = (cfg.N : Int)) := by
  show checkPassportLast cfg (checkPassportUpdate f) = true ↔ _
  unfold checkPassportLast
  split_ifs with h1 h2 h3
  · simp [h1]
  · simp [h2]
  · simp [h3]
  · simp [h1, h2, h3]

/-- Claim C7: the check-in critical section decreases `nPassInQueue` by
exactly one, increases `nPassInFlight` and `totalPassBoarded` by exactly
one, and leaves every other field of the shared record unchanged. -/
theorem checkPassport_counter_deltas (f : FullSt) :
    (checkPassportUpdate f).nPassInQueue = f.nPassInQueue - 1 ∧
    (checkPassportUpdate f).nPassInFlight = f.nPassInFlight + 1 ∧
    (checkPassportUpdate f).totalPassBoarded = f.totalPassBoarded + 1 ∧
    (checkPassportUpdate f).nFlight = f.nFlight ∧
    (checkPassportUpdate f).nPassengersInFlight = f.nPassengersInFlight ∧
    (checkPassportUpdate f).finished = f.finished ∧
    (checkPassportUpdate f).passengerChecked = f.passengerChecked ∧
    (checkPassportUpdate f).hostessStat = f.hostessStat ∧
    (checkPassportUpdate f).passengerStat = f.passengerStat :=
  ⟨rfl, rfl, rfl, rfl, rfl, rfl, rfl, rfl, rfl⟩

/-- A successful run of a schedule whose passenger moves all use valid ids
ends in a reachable state. -/
theorem run_reach (cfg : Config) (ms : List Mv) (s s' : Sys)
    (hs : Reach cfg s) (hv : ∀ p, Mv.P p ∈ ms → p < cfg.N)
    (hr : run cfg ms s = some s') : Reach cfg s' := by
  induction ms generalizing s with
  | nil =>
      simp only [run, Option.some.injEq] at hr
      exact hr ▸ hs
  | cons mv rest ih =>
      simp only [run] at hr
      cases hmv : (match mv with
             | Mv.H => hstep cfg s
             | Mv.P p => pstep p s
             | Mv.L => lstep s) with
      | none => rw [hmv] at hr; exact absurd hr (by simp)
      | some s1 =>
          rw [hmv] at hr
          have hstep1 : Step cfg s s1 := by
            cases mv with
            | H => exact Or.inl hmv
            | P p =>
                refine Or.inr (Or.inl ⟨p, ?_, hmv⟩)
                exact hv p (by simp)
            | L => exact Or.inr (Or.inr hmv)
          exact ih s1 (Reach.step hs hstep1)
            (fun p hp => hv p (List.mem_cons_of_mem _ hp)) hr

/-- Updating a passenger's status to a non-`AT_DESTINATION` value, when it
was not `AT_DESTINATION` before, does not change the destination count. -/
theorem destCount_update_of_ne (n p : Nat) (st : Nat → Option PassengerStat)
    (v : Option PassengerStat) (hv : v ≠ some PassengerStat.AT_DESTINATION)
    (hold : st p ≠ some PassengerStat.AT_DESTINATION) :
    destCount n (Function.update st p v) = destCount n st := by
  unfold destCount
  congr 1
  apply Finset.filter_congr
  intro q _
  by_cases hqp : q = p
  · subst hqp; simp [Function.update, hv, hold]
  · simp [Function.update, hqp]

/-- Updating the status of passenger `p < n` to `AT_DESTINATION`, when it
was not `AT_DESTINATION` before, increases the destination count by one. -/
theorem destCount_update_dest (n p : Nat) (st : Nat → Option PassengerStat)
    (hp : p < n) (hold : st p ≠ some PassengerStat.AT_DESTINATION) :
    destCount n (Function.update st p (some PassengerStat.AT_DESTINATION)) =
      destCount n st + 1 := by
  unfold destCount
  have hset : (Finset.range n).filter
        (fun q => Function.update st p (some PassengerStat.AT_DESTINATION) q =
          some PassengerStat.AT_DESTINATION) =
      insert p ((Finset.range n).filter
        (fun q => st q = some PassengerStat.AT_DESTINATION)) := by
    ext q
    by_cases hqp : q = p
    · subst hqp
      simp [Function.update, hp, Finset.mem_filter, Finset.mem_insert]
    · simp only [Finset.mem_filter, Finset.mem_insert, Finset.mem_range,
        Function.update, hqp]
      simp [hqp]
  rw [hset, Finset.card_insert_of_not_mem]
  simp [hold]

/-- If the departure decision is `false`, not all passengers have boarded. -/
theorem checkPassportLast_false_total (cfg : Config) (f : FullSt)
    (h : checkPassportLast cfg f = false) :
    f.totalPassBoarded ≠ (cfg.N : Int) := by
  unfold checkPassportLast at h
  split_ifs at h with h1 h2 h3
  simp_all

/-- The invariant holds at the initial state. -/
theorem inv_init (cfg : Config) : Inv cfg initSys := by
  refine ⟨?_, ?_, ?_, ?_, ?_⟩
  · simp [initSys, destCount]
  · intro p _
    simp [initSys, pcStatus]
  · simp [initSys]
  · simp [initSys, hctl]
  · simp [initSys]

/-- The invariant is preserved by pilot steps. -/
theorem inv_lstep (cfg : Config) (s s' : Sys) (hI : Inv cfg s)
    (h : lstep s = some s') : Inv cfg s' := by
  obtain ⟨hc1, hc2, hc3, hc4, hc5⟩ := hI
  cases hl : s.lpc
  case l0 =>
    simp only [lstep, hl, Option.some.injEq] at h
    subst h
    exact ⟨hc1, hc2, hc3, hc4, hc5⟩
  case l1 =>
    simp only [lstep, hl] at h
    split at h
    · exact absurd h (by simp)
    · simp only [Option.some.injEq] at h
      subst h
      exact ⟨hc1, hc2, hc3, hc4, hc5⟩
  case l2 =>
    simp only [lstep, hl, Option.some.injEq] at h
    subst h
    exact ⟨hc1, hc2, hc3, hc4, hc5⟩
  case l3 =>
    simp only [lstep, hl] at h
    split at h
    · exact absurd h (by simp)
    · simp only [Option.some.injEq] at h
      subst h
      exact ⟨hc1, hc2, hc3, hc4, hc5⟩

/-- The invariant is preserved by steps of passenger `p < N`. -/
theorem inv_pstep (cfg : Config) (p : Nat) (s s' : Sys) (hp : p < cfg.N)
    (hI : Inv cfg s) (h : pstep p s = some s') : Inv cfg s' := by
  obtain ⟨hc1, hc2, hc3, hc4, hc5⟩ := hI
  have hst := hc2 p hp
  cases hq : s.ppc p
  case p0 =>
    rw [hq] at hst
    simp only [pcStatus] at hst
    simp only [pstep, hq, Option.some.injEq] at h
    subst h
    refine ⟨?_, ?_, hc3, hc4, hc5⟩
    · dsimp only [waitInQueueEnqueueCS]
      rw [destCount_update_of_ne cfg.N p s.fSt.passengerStat
        (some PassengerStat.IN_QUEUE) (by simp) (by simp [hst])]
      exact hc1
    · intro q hq2
      dsimp only [waitInQueueEnqueueCS]
      by_cases hqp : q = p
      · subst hqp
        rw [Function.update_same, Function.update_same]
        simp only [pcStatus]
      · rw [Function.update_noteq hqp, Function.update_noteq hqp]
        exact hc2 q hq2
  case p1 =>
    rw [hq] at hst
    simp only [pcStatus] at hst
    simp only [pstep, hq, Option.some.injEq] at h
    subst h
    refine ⟨hc1, ?_, hc3, hc4, hc5⟩
    intro q hq2
    dsimp only
    by_cases hqp : q = p
    · subst hqp
      rw [Function.update_same]
      simp only [pcStatus]
      exact hst
    · rw [Function.update_noteq hqp]
      exact hc2 q hq2
  case p2 =>
    rw [hq] at hst
    simp only [pcStatus] at hst
    simp only [pstep, hq] at h
    split at h
    · exact absurd h (by simp)
    · simp only [Option.some.injEq] at h
      subst h
      refine ⟨hc1, ?_, hc3, hc4, hc5⟩
      intro q hq2
      dsimp only
      by_cases hqp : q = p
      · subst hqp
        rw [Function.update_same]
        simp only [pcStatus]
        exact hst
      · rw [Function.update_noteq hqp]
        exact hc2 q hq2
  case p3 =>
    rw [hq] at hst
    simp only [pcStatus] at hst
    simp only [pstep, hq, Option.some.injEq] at h
    subst h
    refine ⟨?_, ?_, hc3, hc4, hc5⟩
    · dsimp only [waitInQueueShowIdCS]
      rw [destCount_update_of_ne cfg.N p s.fSt.passengerStat
        (some PassengerStat.IN_FLIGHT) (by simp) (by simp [hst])]
      exact hc1
    · intro q hq2
      dsimp only [waitInQueueShowIdCS]
      by_cases hqp : q = p
      · subst hqp
        rw [Function.update_same, Function.update_same]
        simp only [pcStatus]
      · rw [Function.update_noteq hqp, Function.update_noteq hqp]
        exact hc2 q hq2
  case p4 =>
    rw [hq] at hst
    simp only [pcStatus] at hst
    simp only [pstep, hq, Option.some.injEq] at h
    subst h
    refine ⟨hc1, ?_, hc3, hc4, hc5⟩
    intro q hq2
    dsimp only
    by_cases hqp : q = p
    · subst hqp
      rw [Function.update_same]
      simp only [pcStatus]
      exact hst
    · rw [Function.update_noteq hqp]
      exact hc2 q hq2
  case p5 =>
    rw [hq] at hst
    simp only [pcStatus] at hst
    simp only [pstep, hq] at h
    split at h
    · exact absurd h (by simp)
    · simp only [Option.some.injEq] at h
      subst h
      refine ⟨hc1, ?_, hc3, hc4, hc5⟩
      intro q hq2
      dsimp only
      by_cases hqp : q = p
      · subst hqp
        rw [Function.update_same]
        simp only [pcStatus]
        exact hst
      · rw [Function.update_noteq hqp]
        exact hc2 q hq2
  case p6 =>
    rw [hq] at hst
    simp only [pcStatus] at hst
    simp only [pstep, hq, Option.some.injEq] at h
    subst h
    refine ⟨?_, ?_, hc3, hc4, hc5⟩
    · dsimp only [leavePlaneCS]
      rw [destCount_update_dest cfg.N p s.fSt.passengerStat hp (by simp [hst])]
      push_cast
      omega
    · intro q hq2
      dsimp only [leavePlaneCS]
      by_cases hqp : q = p
      · subst hqp
        rw [Function.update_same, Function.update_same]
        simp only [pcStatus]
      · rw [Function.update_noteq hqp, Function.update_noteq hqp]
        exact hc2 q hq2
  case p7 =>
    simp only [pstep, hq] at h
    exact Option.noConfusion h

/-- The invariant is preserved by hostess steps. -/
theorem inv_hstep (cfg : Config) (s s' : Sys) (hI : Inv cfg s)
    (h : hstep cfg s = some s') : Inv cfg s' := by
  obtain ⟨hc1, hc2, hc3, hc4, hc5⟩ := hI
  cases hh : s.hpc
  case h0 =>
    rw [hh] at hc4
    simp only [hctl] at hc4
    simp only [hstep, hh] at h
    by_cases hlt : s.nPassengers < cfg.N
    · rw [if_pos hlt, Option.some.injEq] at h
      subst h
      exact ⟨hc1, hc2, hc3, by simp only [hctl]; omega, hc5⟩
    · rw [if_neg hlt, Option.some.injEq] at h
      subst h
      exact ⟨hc1, hc2, hc3, by simp only [hctl]; omega, hc5⟩
  case h1 =>
    rw [hh] at hc4
    simp only [hctl] at hc4
    simp only [hstep, hh, Option.some.injEq] at h
    subst h
    exact ⟨hc1, hc2, hc3, by simp only [hctl]; omega, hc5⟩
  case h2 =>
    rw [hh] at hc4
    simp only [hctl] at hc4
    simp only [hstep, hh] at h
    split at h
    · exact absurd h (by simp)
    · simp only [Option.some.injEq] at h
      subst h
      exact ⟨hc1, hc2, hc3, by simp only [hctl]; omega, hc5⟩
  case h3 =>
    rw [hh] at hc4
    simp only [hctl] at hc4
    simp only [hstep, hh, Option.some.injEq] at h
    subst h
    exact ⟨hc1, hc2, hc3, by simp only [hctl]; omega, hc5⟩
  case h4 =>
    rw [hh] at hc4
    simp only [hctl] at hc4
    simp only [hstep, hh] at h
    split at h
    · exact absurd h (by simp)
    · simp only [Option.some.injEq] at h
      subst h
      exact ⟨hc1, hc2, hc3, by simp only [hctl]; omega, hc5⟩
  case h5 =>
    rw [hh] at hc4
    simp only [hctl] at hc4
    simp only [hstep, hh, Option.some.injEq] at h
    subst h
    exact ⟨hc1, hc2, hc3, by simp only [hctl]; omega, hc5⟩
  case h6 =>
    rw [hh] at hc4
    simp only [hctl] at hc4
    simp only [hstep, hh, Option.some.injEq] at h
    subst h
    exact ⟨hc1, hc2, hc3, by simp only [hctl]; omega, hc5⟩
  case h7 =>
    rw [hh] at hc4
    simp only [hctl] at hc4
    simp only [hstep, hh] at h
    split at h
    · exact absurd h (by simp)
    · simp only [Option.some.injEq] at h
      subst h
      exact ⟨hc1, hc2, hc3, by simp only [hctl]; omega, hc5⟩
  case h8 =>
    rw [hh] at hc4
    simp only [hctl] at hc4
    simp only [hstep, hh, Option.some.injEq] at h
    subst h
    have hfin : s.fSt.finished = false := by
      cases hfb : s.fSt.finished
      · rfl
      · exfalso
        have hTN := hc5 hfb
        rw [hc3] at hTN
        have hnn : s.nPassengers = cfg.N := by exact_mod_cast hTN
        omega
    refine ⟨?_, hc2, ?_, ?_, ?_⟩
    · dsimp only [checkPassportCS, checkPassportUpdate]
      omega
    · dsimp only [checkPassportCS, checkPassportUpdate]
      push_cast
      omega
    · by_cases hlast : (checkPassportCS cfg s.fSt).2 = true
      · dsimp only
        rw [if_pos hlast]
        simp only [hctl]
        omega
      · have hlf : (checkPassportCS cfg s.fSt).2 = false := by
          revert hlast
          cases (checkPassportCS cfg s.fSt).2 <;> simp
        have hT : (checkPassportUpdate s.fSt).totalPassBoarded ≠ (cfg.N : Int) :=
          checkPassportLast_false_total cfg (checkPassportUpdate s.fSt) hlf
        have hT2 : s.fSt.totalPassBoarded + 1 ≠ (cfg.N : Int) := hT
        rw [hc3] at hT2
        dsimp only
        rw [if_neg hlast]
        simp only [hctl]
        omega
    · intro hcontra
      dsimp only [checkPassportCS, checkPassportUpdate] at hcontra
      rw [hfin] at hcontra
      exact absurd hcontra (by decide)
  case h9 =>
    rw [hh] at hc4
    simp only [hctl] at hc4
    simp only [hstep, hh, Option.some.injEq] at h
    subst h
    refine ⟨hc1, hc2, hc3, ?_, ?_⟩
    · simp only [hctl]
      omega
    · dsimp only [signalReadyToFlightCS]
      by_cases hTN : s.fSt.totalPassBoarded = (cfg.N : Int)
      · intro _
        exact hTN
      · rw [if_neg hTN]
        exact hc5
  case h10 =>
    rw [hh] at hc4
    simp only [hctl] at hc4
    simp only [hstep, hh, Option.some.injEq] at h
    subst h
    exact ⟨hc1, hc2, hc3, by simp only [hctl]; omega, hc5⟩
  case hdone =>
    simp only [hstep, hh] at h
    exact Option.noConfusion h

/-- The invariant is preserved by every interleaving step. -/
theorem inv_step (cfg : Config) (s s' : Sys) (hI : Inv cfg s)
    (h : Step cfg s s') : Inv cfg s' := by
  rcases h with h | ⟨p, hp, h⟩ | h
  · exact inv_hstep cfg s s' hI h
  · exact inv_pstep cfg p s s' hp hI h
  · exact inv_lstep cfg s s' hI h

/-- The invariant holds at every reachable state. -/
theorem inv_reach (cfg : Config) (s : Sys) (hs : Reach cfg s) : Inv cfg s := by
  induction hs with
  | init => exact inv_init cfg
  | step _ hs12 ih => exact inv_step cfg _ _ ih hs12

/-- The counter `totalPassBoarded` never decreases along a step. -/
theorem step_total_mono (cfg : Config) (s s' : Sys) (h : Step cfg s s') :
    s.fSt.totalPassBoarded ≤ s'.fSt.totalPassBoarded := by
  rcases h with h | ⟨p, hp, h⟩ | h
  · cases hh : s.hpc
    all_goals simp only [hstep, hh] at h
    all_goals first
      | exact Option.noConfusion h
      | (split at h
         <;> first
           | exact Option.noConfusion h
           | (simp only [Option.some.injEq] at h
              subst h
              dsimp only [checkPassportCS, checkPassportUpdate, signalReadyToFlightCS]
              omega))
      | (simp only [Option.some.injEq] at h
         subst h
         dsimp only [checkPassportCS, checkPassportUpdate, signalReadyToFlightCS]
         omega)
  · cases hq : s.ppc p
    all_goals simp only [pstep, hq] at h
    all_goals first
      | exact Option.noConfusion h
      | (split at h
         <;> first
           | exact Option.noConfusion h
           | (simp only [Option.some.injEq] at h
              subst h
              dsimp only [waitInQueueEnqueueCS, waitInQueueShowIdCS, leavePlaneCS]
              omega))
      | (simp only [Option.some.injEq] at h
         subst h
         dsimp only [waitInQueueEnqueueCS, waitInQueueShowIdCS, leavePlaneCS]
         omega)
  · cases hl : s.lpc
    all_goals simp only [lstep, hl] at h
    all_goals first
      | exact Option.noConfusion h
      | (split at h
         <;> first
           | exact Option.noConfusion h
           | (simp only [Option.some.injEq] at h
              subst h
              dsimp only
              omega))
      | (simp only [Option.some.injEq] at h
         subst h
         dsimp only
         omega)

/-- Claim C2, counterexample: the conservation sum of the claim wrongly
includes `nPassInQueue`.  From the initial state, one enqueue step of
passenger 0 reaches a mutex-free state with `nPassInQueue = 1` but
`totalPassBoarded = 0`, so
`nPassInQueue + nPassInFlight + #AT_DESTINATION ≠ totalPassBoarded`. -/
theorem conservation_queue_counterexample :
    Reach cfg1 enqState ∧
    enqState.fSt.nPassInQueue + enqState.fSt.nPassInFlight +
      (destCount cfg1.N enqState.fSt.passengerStat : Int) ≠
      enqState.fSt.totalPassBoarded := by
  constructor
  · refine run_reach cfg1 enqSched initSys enqState Reach.init ?_ rfl
    intro p hp
    simp only [enqSched, List.mem_singleton, Mv.P.injEq] at hp
    subst hp
    decide
  · decide

/-- Claim C2, amended: at every reachable mutex-free state,
`nPassInFlight + #AT_DESTINATION = totalPassBoarded` (queued passengers are
not yet boarded, so `nPassInQueue` does not belong in the sum), and
`totalPassBoarded` never decreases along any step. -/
theorem conservation_invariant (cfg : Config) (s : Sys) (hs : Reach cfg s) :
    (s.fSt.nPassInFlight + (destCount cfg.N s.fSt.passengerStat : Int) =
      s.fSt.totalPassBoarded) ∧
    ∀ s', Step cfg s s' → s.fSt.totalPassBoarded ≤ s'.fSt.totalPassBoarded :=
  ⟨(inv_reach cfg s hs).1, fun s' h => step_total_mono cfg s s' h⟩

/-- Witness for the amended C2 at the concrete reachable state `enqState`. -/
theorem conservation_invariant_witness :
    enqState.fSt.nPassInFlight +
      (destCount cfg1.N enqState.fSt.passengerStat : Int) =
      enqState.fSt.totalPassBoarded :=
  (conservation_invariant cfg1 enqState
    (run_reach cfg1 enqSched initSys enqState Reach.init
      (by
        intro p hp
        simp only [enqSched, List.mem_singleton, Mv.P.injEq] at hp
        subst hp
        decide) rfl)).1

/-- Claim C4, counterexample: with `N = 1`, immediately after the check-in
that makes `totalPassBoarded` reach `N`, the hostess releases the mutex with
`finished` still false — `finished` is only set later, inside the
`READY_TO_FLIGHT` critical section — so "`finished` iff
`totalPassBoarded = N` at every mutex release" fails at this reachable
state. -/
theorem finished_iff_counterexample :
    Reach cfg1 lastCheckState ∧
    lastCheckState.fSt.totalPassBoarded = (cfg1.N : Int) ∧
    lastCheckState.fSt.finished = false := by
  refine ⟨?_, ?_, ?_⟩
  · refine run_reach cfg1 lastCheckSched initSys lastCheckState Reach.init ?_ rfl
    intro p hp
    simp only [lastCheckSched, List.mem_cons, List.not_mem_nil, or_false] at hp
    rcases hp with h | h | h | h | h | h | h | h | h | h | h | h | h | h | h <;>
      first
        | exact Mv.noConfusion h
        | (cases h; decide)
  · decide
  · decide

/-- Claim C4, amended: at every reachable mutex-free state `finished = true`
implies `totalPassBoarded = N`, and immediately after the `READY_TO_FLIGHT`
critical section the full biconditional `finished ⇔ totalPassBoarded = N`
holds; between the final check-in and that section, however, the mutex is
released with `finished` still false (see the counterexample), so the
biconditional does not hold at every mutex release. -/
theorem finished_sound (cfg : Config) (s s' : Sys) (hs : Reach cfg s) :
    (s.fSt.finished = true → s.fSt.totalPassBoarded = (cfg.N : Int)) ∧
    (s.hpc = HPc.h9 → hstep cfg s = some s' →
      (s'.fSt.finished = true ↔ s'.fSt.totalPassBoarded = (cfg.N : Int))) := by
  have hI := inv_reach cfg s hs
  obtain ⟨hc1, hc2, hc3, hc4, hc5⟩ := hI
  refine ⟨hc5, ?_⟩
  intro hh h
  simp only [hstep, hh, Option.some.injEq] at h
  subst h
  dsimp only [signalReadyToFlightCS]
  by_cases hTN : s.fSt.totalPassBoarded = (cfg.N : Int)
  · rw [if_pos hTN]
    simp [hTN]
  · rw [if_neg hTN]
    constructor
    · intro hf
      exact absurd (hc5 hf) hTN
    · intro hT
      exact absurd hT hTN

/-- Witness for the amended C4: after the `READY_TO_FLIGHT` section of the
`N = 1` run, `finished` agrees with `totalPassBoarded = N`. -/
theorem finished_sound_witness :
    afterReadyState.fSt.finished = true ↔
      afterReadyState.fSt.totalPassBoarded = (cfg1.N : Int) :=
  (finished_sound cfg1 lastCheckState afterReadyState
    (run_reach cfg1 lastCheckSched initSys lastCheckState Reach.init
      (by
        intro p hp
        simp only [lastCheckSched, List.mem_cons, List.not_mem_nil, or_false] at hp
        rcases hp with h | h | h | h | h | h | h | h | h | h | h | h | h | h | h <;>
          first
            | exact Mv.noConfusion h
            | (cases h; decide)) rfl)).2 rfl rfl

/-- Claim C5, counterexample: the source stores the departing flight's
headcount at array index `nFlight - 1`, not at index `nFlight` as the claim
states: with `nFlight = 2` and five passengers aboard, entry `2` of the
array is left unchanged (still `0`), not set to `5`. -/
theorem headcount_index_counterexample :
    (signalReadyToFlightCS cfg10 flight2St).nPassengersInFlight flight2St.nFlight ≠
      flight2St.nPassInFlight := by
  decide

/-- Claim C5, amended: in the `READY_TO_FLIGHT` transition the hostess,
under the mutex, records her status, stores the departing flight's final
headcount (the current `nPassInFlight`) into the per-flight array at index
`nFlight - 1` (all other entries unchanged), sets `finished` if
`totalPassBoarded = N`, touches no gate while in the critical section, and
only in the following step — after the mutex is released — signals
`readyToFlight` to the pilot. -/
theorem ready_to_flight_records (cfg : Config) (f : FullSt) (s : Sys)
    (hh : s.hpc = HPc.h9) :
    (signalReadyToFlightCS cfg f).nPassengersInFlight (f.nFlight - 1) =
      f.nPassInFlight ∧
    (∀ i, i ≠ f.nFlight - 1 →
      (signalReadyToFlightCS cfg f).nPassengersInFlight i =
        f.nPassengersInFlight i) ∧
    (signalReadyToFlightCS cfg f).hostessStat = HostessStat.READY_TO_FLIGHT ∧
    (signalReadyToFlightCS cfg f).finished =
      (if f.totalPassBoarded = (cfg.N : Int) then true else f.finished) ∧
    hstep cfg s = some { s with fSt := signalReadyToFlightCS cfg s.fSt,
                                hpc := HPc.h10 } ∧
    (∀ s2 : Sys, s2.hpc = HPc.h10 →
      hstep cfg s2 = some { s2 with
        sems := { s2.sems with readyToFlight := s2.sems.readyToFlight + 1 },
        hpc := HPc.h0 }) := by
  refine ⟨?_, ?_, rfl, rfl, ?_, ?_⟩
  · dsimp only [signalReadyToFlightCS]
    rw [Function.update_same]
  · intro i hi
    dsimp only [signalReadyToFlightCS]
    rw [Function.update_noteq hi]
  · simp only [hstep, hh]
  · intro s2 h2
    simp only [hstep, h2]

/-- Witness for the amended C5 at the concrete record `flight2St`, using the
reachable `lastCheckState` (whose hostess is at the `READY_TO_FLIGHT`
section) to discharge the control-point hypothesis. -/
theorem ready_to_flight_records_witness :
    (signalReadyToFlightCS cfg10 flight2St).nPassengersInFlight
        (flight2St.nFlight - 1) = flight2St.nPassInFlight :=
  (ready_to_flight_records cfg10 flight2St lastCheckState rfl).1

/-- Claim C9: along any step from a reachable state, each passenger's status
either stays unchanged or advances to the immediately next status in the
order unstarted < `IN_QUEUE` < `IN_FLIGHT` < `AT_DESTINATION`; consequently,
over any execution, every passenger's status passes through the statuses in
strictly increasing order, entering each at most once — no skipping, no
repetition, no revisiting. -/
theorem passenger_status_monotone (cfg : Config) (s s' : Sys) (p : Nat)
    (hs : Reach cfg s) (hstp : Step cfg s s') (_hp : p < cfg.N) :
    s'.fSt.passengerStat p = s.fSt.passengerStat p ∨
    statusRank (s'.fSt.passengerStat p) =
      statusRank (s.fSt.passengerStat p) + 1 := by
  obtain ⟨hc1, hc2, hc3, hc4, hc5⟩ := inv_reach cfg s hs
  rcases hstp with h | ⟨q, hq, h⟩ | h
  · left
    cases hh : s.hpc
    all_goals simp only [hstep, hh] at h
    all_goals first
      | exact Option.noConfusion h
      | (split at h
         <;> first
           | exact Option.noConfusion h
           | (simp only [Option.some.injEq] at h
              subst h
              rfl))
      | (simp only [Option.some.injEq] at h
         subst h
         rfl)
  · have hstq := hc2 q hq
    cases hqc : s.ppc q
    all_goals rw [hqc] at hstq
    all_goals simp only [pcStatus] at hstq
    all_goals simp only [pstep, hqc] at h
    case p0 =>
      simp only [Option.some.injEq] at h
      subst h
      dsimp only [waitInQueueEnqueueCS]
      by_cases hpq : p = q
      · subst hpq
        right
        rw [Function.update_same, hstq]
        rfl
      · left
        rw [Function.update_noteq hpq]
    case p1 =>
      simp only [Option.some.injEq] at h
      subst h
      left
      rfl
    case p2 =>
      split at h
      · exact Option.noConfusion h
      · simp only [Option.some.injEq] at h
        subst h
        left
        rfl
    case p3 =>
      simp only [Option.some.injEq] at h
      subst h
      dsimp only [waitInQueueShowIdCS]
      by_cases hpq : p = q
      · subst hpq
        right
        rw [Function.update_same, hstq]
        rfl
      · left
        rw [Function.update_noteq hpq]
    case p4 =>
      simp only [Option.some.injEq] at h
      subst h
      left
      rfl
    case p5 =>
      split at h
      · exact Option.noConfusion h
      · simp only [Option.some.injEq] at h
        subst h
        left
        rfl
    case p6 =>
      simp only [Option.some.injEq] at h
      subst h
      dsimp only [leavePlaneCS]
      by_cases hpq : p = q
      · subst hpq
        right
        rw [Function.update_same, hstq]
        rfl
      · left
        rw [Function.update_noteq hpq]
    case p7 =>
      exact Option.noConfusion h
  · left
    cases hl : s.lpc
    all_goals simp only [lstep, hl] at h
    all_goals first
      | exact Option.noConfusion h
      | (split at h
         <;> first
           | exact Option.noConfusion h
           | (simp only [Option.some.injEq] at h
              subst h
              rfl))
      | (simp only [Option.some.injEq] at h
         subst h
         rfl)

/-- Witness for C9: the enqueue step of passenger 0 advances its status from
unstarted (rank 0) to `IN_QUEUE` (rank 1). -/
theorem passenger_status_monotone_witness :
    Step cfg1 initSys enqState ∧
    (enqState.fSt.passengerStat 0 = initSys.fSt.passengerStat 0 ∨
     statusRank (enqState.fSt.passengerStat 0) =
       statusRank (initSys.fSt.passengerStat 0) + 1) :=
  ⟨Or.inr (Or.inl ⟨0, by decide, rfl⟩),
   passenger_status_monotone cfg1 initSys enqState 0 Reach.init
     (Or.inr (Or.inl ⟨0, by decide, rfl⟩)) (by decide)⟩

/-- The hostess step function commutes with erasing `passengerChecked`: it
never reads that field. -/
theorem scrub_hstep (cfg : Config) (s : Sys) :
    Option.map scrub (hstep cfg s) = hstep cfg (scrub s) := by
  cases hh : s.hpc
  case h0 =>
    by_cases hlt : s.nPassengers < cfg.N <;>
      simp [hstep, scrub, hh, hlt]
  case h2 =>
    by_cases hz : s.sems.readyForBoarding = 0 <;>
      simp [hstep, scrub, hh, hz]
  case h4 =>
    by_cases hz : s.sems.passengersInQueue = 0 <;>
      simp [hstep, scrub, hh, hz]
  case h7 =>
    by_cases hz : s.sems.idShown = 0 <;>
      simp [hstep, scrub, hh, hz]
  case h8 =>
    simp [hstep, scrub, hh, checkPassportCS, checkPassportUpdate,
      checkPassportLast]
  case h9 =>
    simp [hstep, scrub, hh, signalReadyToFlightCS]
  all_goals simp [hstep, scrub, hh]

/-- Claim C10: the check-in outcome does not depend on the identity handed
over — for any two states equal except for the `passengerChecked` field, the
hostess's next step produces states again equal except for that field: her
counter updates, departure decision, recorded headcounts, control flow and
emitted gate signals are identical. -/
theorem hostess_ignores_passengerChecked (cfg : Config) (s1 s2 : Sys)
    (h : scrub s1 = scrub s2) :
    Option.map scrub (hstep cfg s1) = Option.map scrub (hstep cfg s2) := by
  rw [scrub_hstep, scrub_hstep, h]

/-- Witness for C10 at two concrete states differing only in
`passengerChecked`. -/
theorem hostess_ignores_passengerChecked_witness :
    Option.map scrub (hstep cfg1 checkedOneSt) =
      Option.map scrub (hstep cfg1 checkedTwoSt) :=
  hostess_ignores_passengerChecked cfg1 checkedOneSt checkedTwoSt rfl

/-- Claim C8: when the `k ≥ 1` passengers aboard a departed flight disembark
one by one (each running the disembark critical section once, in any order),
exactly one of them signals `planeEmpty`, namely the last one, whose
decrement brings `nPassInFlight` to zero; no earlier passenger signals.  The
zero-test and signal happen inside the same critical section as the
decrement (`leavePlaneCS`), mirroring the source where all three occur
under the mutex. -/
theorem plane_empty_exactly_once (ps : List Nat) (f : FullSt)
    (hlen : f.nPassInFlight = (ps.length : Int)) (hne : ps ≠ []) :
    disembarkFlags ps f =
      List.replicate (ps.length - 1) false ++ [true] := by
  induction ps generalizing f with
  | nil => exact absurd rfl hne
  | cons p rest ih =>
      cases rest with
      | nil =>
          have h1 : f.nPassInFlight - 1 = 0 := by
            rw [hlen]
            simp
          show (f.nPassInFlight - 1 == 0) :: _ = _
          rw [h1]
          simp [disembarkFlags]
      | cons q rest2 =>
          have hlen2 : (leavePlaneCS p f).1.nPassInFlight =
              ((q :: rest2).length : Int) := by
            show f.nPassInFlight - 1 = ((q :: rest2).length : Int)
            rw [hlen]
            simp only [List.length_cons]
            push_cast
            ring
          have hflag : (leavePlaneCS p f).2 = false := by
            show (f.nPassInFlight - 1 == 0) = false
            rw [hlen]
            simp only [List.length_cons, beq_eq_false_iff_ne, ne_eq]
            push_cast
            omega
          show (leavePlaneCS p f).2 ::
              disembarkFlags (q :: rest2) (leavePlaneCS p f).1 = _
          rw [hflag, ih (leavePlaneCS p f).1 hlen2 (by simp)]
          simp [List.replicate_succ]

/-- Witness for C8: three passengers disembark; only the third signals
`planeEmpty`. -/
theorem plane_empty_exactly_once_witness :
    threeAboard.nPassInFlight = (([0, 1, 2] : List Nat).length : Int) ∧
    disembarkFlags [0, 1, 2] threeAboard =
      List.replicate (([0, 1, 2] : List Nat).length - 1) false ++ [true] :=
  ⟨by decide,
   plane_empty_exactly_once [0, 1, 2] threeAboard (by decide) (by decide)⟩

/-- If all `N` passengers have boarded, the departure decision fires no
matter what the other counters hold. -/
theorem lastAt_total (cfg : Config) (env : HEnv) :
    lastAt cfg env cfg.N = true := by
  unfold lastAt checkPassportLast
  split_ifs with h1 h2 h3 <;> simp_all

/-- The inner check-in loop, started below `N` with fuel at least `N - n`,
returns with a strictly larger count that is at most `N`. -/
theorem hostessInnerLoop_completes (cfg : Config) (env : HEnv) :
    ∀ (fuel n : Nat), n < cfg.N → cfg.N - n ≤ fuel →
    ∃ n', hostessInnerLoop cfg env fuel n = some n' ∧ n < n' ∧ n' ≤ cfg.N := by
  intro fuel
  induction fuel with
  | zero =>
      intro n h1 h2
      omega
  | succ fuel ih =>
      intro n h1 h2
      by_cases hl : lastAt cfg env (n + 1) = true
      · exact ⟨n + 1, by simp [hostessInnerLoop, hl], by omega, by omega⟩
      · have hne : n + 1 ≠ cfg.N := by
          intro hEq
          rw [hEq] at hl
          exact hl (lastAt_total cfg env)
        obtain ⟨n', hrun, hlt, hle⟩ := ih (n + 1) (by omega) (by omega)
        refine ⟨n', ?_, by omega, hle⟩
        simp [hostessInnerLoop, hl, hrun]

/-- The outer loop, started at any count at most `N` with enough fuel,
returns exactly `N`. -/
theorem hostessOuterLoop_completes (cfg : Config) (env : HEnv) :
    ∀ (fuel n : Nat), n ≤ cfg.N → cfg.N - n < fuel →
    hostessOuterLoop cfg env fuel n = some cfg.N := by
  intro fuel
  induction fuel with
  | zero =>
      intro n h1 h2
      omega
  | succ fuel ih =>
      intro n h1 h2
      by_cases hlt : n < cfg.N
      · obtain ⟨n', hrun, hl1, hl2⟩ :=
          hostessInnerLoop_completes cfg env (cfg.N - n) n hlt (le_refl _)
        simp only [hostessOuterLoop, if_pos hlt, hrun]
        exact ih n' hl2 (by omega)
      · have hEq : n = cfg.N := by omega
        simp [hostessOuterLoop, hlt, hEq]

/-- Claim C6: for every configuration and every environment behavior (any
queue and occupancy contents observed after each check-in — i.e. any timing
of the `N` passenger actors, with the blocking waits granted as the Pilot's
signal contract guarantees), the hostess's outer loop terminates within a
finite fuel bound and its local counter ends at exactly `N`: exactly `N`
check-ins are performed cumulatively across all flights, each flight
contributing at least one, and the loop exits as soon as the count reaches
`N`. -/
theorem hostess_terminates_N_checkins (cfg : Config) (env : HEnv) :
    hostessOuterLoop cfg env (cfg.N + 1) 0 = some cfg.N :=
  hostessOuterLoop_completes cfg env (cfg.N + 1) 0 (Nat.zero_le _) (by omega)

/-- Claim C3 is violated by the source: `waitUntilDestination` ignores the
result of `semDown(semgid, sh->passengersWaitInFlight)` (line 224 has no
`== -1` check) — the function's outcome does not depend on that operation's
result at all, and when exactly that gate operation fails the process does
not terminate but carries on into the critical section, contradicting the
fatal-on-failure claim. -/
theorem gate_failure_ignored :
    (∀ (p : Nat) (e : DestEnv) (f : FullSt),
        waitUntilDestinationRun p { e with waitInFlightRes := SemRes.err } f =
          waitUntilDestinationRun p { e with waitInFlightRes := SemRes.ok } f) ∧
    (waitUntilDestinationRun 0 destEnvBad oneAboard).isTerminated = false :=
  ⟨fun _ _ _ => rfl, rfl⟩

end AirLift
